import Mathlib

/-!
Shallow embedding of `src/app.py` of the lumber-pricer repository.

Two pieces of logic are embedded:

* the ingestion adapter `process_file` (app.py, lines 30-43), with the
  external PyMuPDF rasterization library and the base64 transport
  encoding modelled symbolically (an opened stream either yields its
  list of pages or raises, a pixmap records the page and zoom matrix it
  was rendered from, `b64encode` is an injective wrapper);

* the pandas-based pricing block (app.py, lines 108-150): the shopping
  list becomes a DataFrame whose columns exist only when some row dict
  supplied the key (`pd.DataFrame` raises `KeyError` on access to an
  absent column), a cell missing from a row is NaN (modelled as `none`),
  multiplication propagates NaN, and `Series.sum()` uses the pandas
  default `skipna=True`, silently skipping NaN cells.  Numeric values
  are modelled exactly, as rationals.
-/

namespace LumberPricer

/-! ## Ingestion adapter (`process_file`, app.py lines 30-43) -/

/-- A PDF page, identified abstractly; its content is never inspected. -/
structure Page where
  id : Nat

deriving instance DecidableEq, Repr for Page

/-- `fitz.Matrix(a, d)`: a zoom matrix (the off-diagonal entries of the
real PyMuPDF matrix are zero for this constructor and are omitted). -/
structure FitzMatrix where
  a : ℚ
  d : ℚ

deriving instance DecidableEq, Repr for FitzMatrix

/-- `page.get_pixmap(matrix=m)` produces a raster rendering; the model
records which page was rendered and at which zoom matrix. -/
structure Pixmap where
  matrix : FitzMatrix
  page : Page

deriving instance DecidableEq, Repr for Pixmap

/-- `page.get_pixmap(matrix=m)` (app.py line 36). -/
def Page.get_pixmap (page : Page) (m : FitzMatrix) : Pixmap :=
  { matrix := m, page := page }

/-- Byte strings flowing through `process_file`, kept symbolic:
a stream that PyMuPDF parses as a PDF with a given page list, a stream
PyMuPDF cannot parse, raw uploaded raster-image bytes, and the PNG bytes
produced by `pix.tobytes("png")`. -/
inductive Bytes where
  | pdfStream (pages : List Page)
  | corrupt (tag : Nat)
  | raw (data : List Nat)
  | png (pix : Pixmap)

deriving instance DecidableEq, Repr for Bytes

/-- `pix.tobytes("png")` (app.py line 37). -/
def Pixmap.tobytes_png (pix : Pixmap) : Bytes :=
  .png pix

/-- The error `fitz.open` raises on a stream it cannot parse as a PDF
(PyMuPDF's `FileDataError`). -/
inductive FitzError where
  | fileDataError

deriving instance DecidableEq, Repr for FitzError

/-- Model of the external `fitz.open(stream=..., filetype="pdf")`
(app.py line 33): a well-formed PDF stream yields its ordered pages,
anything else raises. -/
def fitzOpen (stream : Bytes) : Except FitzError (List Page) :=
  match stream with
  | .pdfStream pages => .ok pages
  | _ => .error .fileDataError

/-- The result of `base64.b64encode(...).decode('utf-8')`: a transport
encoding, modelled as an injective wrapper around the encoded bytes. -/
structure B64String where
  payload : Bytes

deriving instance DecidableEq, Repr for B64String

/-- `base64.b64encode(b).decode('utf-8')` (app.py lines 38 and 41). -/
def b64encode (b : Bytes) : B64String :=
  ⟨b⟩

/-- The uploaded artifact: its declared MIME type and its raw bytes
(`uploaded_file.read()` and `uploaded_file.getvalue()` both return the
full byte content). -/
structure UploadedFile where
  type : String
  bytes : Bytes

deriving instance DecidableEq, Repr for UploadedFile

/-- `process_file` (app.py lines 30-43): a PDF is opened and its first
`min(len(doc), 5)` pages are rendered at `fitz.Matrix(3, 3)` and
base64-encoded; any other artifact is passed through as a single
base64-encoded element.  An exception from `fitz.open` propagates
(there is no handler inside `process_file`). -/
def process_file (uploaded_file : UploadedFile) : Except FitzError (List B64String) :=
  if uploaded_file.type = "application/pdf" then
    (fitzOpen uploaded_file.bytes).bind fun doc =>
      .ok ((List.range (min doc.length 5)).map fun page_num =>
        let page := doc.getD page_num ⟨0⟩
        let pix := page.get_pixmap ⟨3, 3⟩
        let img_bytes := pix.tobytes_png
        b64encode img_bytes)
  else
    .ok [b64encode uploaded_file.bytes]

/-! ## Pricing engine (app.py lines 108-150) -/

/-- The two retailers being compared; retailer A is Home Depot and
retailer B is Lowes. -/
inductive Retailer where
  | HD
  | Lowes

deriving instance DecidableEq, Repr for Retailer

/-- The shopping-list DataFrame column keys the engine consumes. -/
inductive Col where
  | Qty
  | Price_HD
  | Price_Lowes

deriving instance DecidableEq, Repr for Col

/-- The pandas `KeyError` raised by `edited_df[c]` for a column no row
supplied. -/
inductive EngineError where
  | keyError (col : Col)

deriving instance DecidableEq, Repr for EngineError

/-- One row of the parsed `shopping_list` as it enters
`pd.DataFrame(data["shopping_list"])`: only the three numeric fields the
engine reads are modelled (`Item` and `Reasoning` are never used in the
computation).  `none` models a key absent from the JSON row dict, which
pandas materializes as a NaN cell. -/
structure Row where
  qty : Option ℚ
  price_hd : Option ℚ
  price_lowes : Option ℚ

deriving instance DecidableEq, Repr for Row

/-- The cell projection of a DataFrame column. -/
def Col.proj : Col → Row → Option ℚ
  | .Qty => Row.qty
  | .Price_HD => Row.price_hd
  | .Price_Lowes => Row.price_lowes

/-- `edited_df[c]`: pandas raises `KeyError` when no row dict supplied
the key `c` (in particular when the shopping list is empty, since
`pd.DataFrame([])` has no columns); otherwise the column of cells, with
NaN (`none`) in rows lacking the key. -/
def dfColumn (rows : List Row) (c : Col) : Except EngineError (List (Option ℚ)) :=
  if rows.any fun r => (c.proj r).isSome then .ok (rows.map c.proj)
  else .error (.keyError c)

/-- Elementwise float multiplication of two cells: NaN propagates. -/
def mulCell (a b : Option ℚ) : Option ℚ :=
  match a, b with
  | some x, some y => some (x * y)
  | _, _ => none

/-- `Series.sum()` with the pandas default `skipna=True`: NaN cells are
skipped (an all-NaN or empty column sums to 0.0). -/
def nansum (cells : List (Option ℚ)) : ℚ :=
  (cells.filterMap id).sum

/-- The numbers the calculation block produces, together with which
retailer the comparison `hd_final < lowes_final` declares cheaper
(the `st.success` branch of app.py lines 137-150). -/
structure PricingResult where
  hd_subtotal : ℚ
  lowes_subtotal : ℚ
  hd_tax : ℚ
  lowes_tax : ℚ
  hd_final : ℚ
  lowes_final : ℚ
  cheaper : Retailer

deriving instance DecidableEq, Repr for PricingResult

/-- The calculation engine (app.py lines 121-137): per-row totals
`Qty * Price_HD` and `Qty * Price_Lowes`, their column sums, tax at
`tax_rate / 100.0`, finals, and the comparison.  Column accesses happen
in source order (`Qty`, `Price_HD`, `Price_Lowes`), so the first absent
column determines the raised `KeyError`. -/
def computePricing (rows : List Row) (tax_rate : ℚ) : Except EngineError PricingResult :=
  (dfColumn rows .Qty).bind fun qtyCol =>
  (dfColumn rows .Price_HD).bind fun hdCol =>
  (dfColumn rows .Price_Lowes).bind fun lowesCol =>
    let totalHD := List.zipWith mulCell qtyCol hdCol
    let totalLowes := List.zipWith mulCell qtyCol lowesCol
    let hd_subtotal := nansum totalHD
    let lowes_subtotal := nansum totalLowes
    let tax_decimal := tax_rate / 100
    let hd_tax := hd_subtotal * tax_decimal
    let lowes_tax := lowes_subtotal * tax_decimal
    let hd_final := hd_subtotal + hd_tax
    let lowes_final := lowes_subtotal + lowes_tax
    .ok { hd_subtotal := hd_subtotal, lowes_subtotal := lowes_subtotal,
          hd_tax := hd_tax, lowes_tax := lowes_tax,
          hd_final := hd_final, lowes_final := lowes_final,
          cheaper := if hd_final < lowes_final then .HD else .Lowes }

/-- A validated line item (the spec's LineItem): quantity and the two
unit prices, all numeric.  `name`/`rationale` play no computational
role. -/
structure LineItem where
  quantity : ℚ
  priceA : ℚ
  priceB : ℚ

deriving instance DecidableEq, Repr for LineItem

/-- A fully-populated JSON row: every numeric key present. -/
def LineItem.toRow (it : LineItem) : Row :=
  { qty := some it.quantity, price_hd := some it.priceA, price_lowes := some it.priceB }

/-- The specified retailer-A subtotal, `Σ quantity_i * unitPriceA_i`. -/
def subtotalA (items : List LineItem) : ℚ :=
  (items.map fun it => it.quantity * it.priceA).sum

/-- The specified retailer-B subtotal, `Σ quantity_i * unitPriceB_i`. -/
def subtotalB (items : List LineItem) : ℚ :=
  (items.map fun it => it.quantity * it.priceB).sum

/-! ## Helper lemmas -/

/-- On a nonempty list of fully-populated rows every column access
succeeds. -/
theorem dfColumn_map_toRow (items : List LineItem) (h : items ≠ []) (c : Col) :
    dfColumn (items.map LineItem.toRow) c = .ok ((items.map LineItem.toRow).map c.proj) := by
  cases items with
  | nil => exact absurd rfl h
  | cons it rest => cases c <;> simp [dfColumn, Col.proj, LineItem.toRow]

/-- `nansum` of an elementwise product of two all-numeric columns is the
sum of the products. -/
theorem nansum_zip (f g : LineItem → ℚ) (items : List LineItem) :
    nansum (List.zipWith mulCell (items.map fun it => some (f it))
      (items.map fun it => some (g it))) = (items.map fun it => f it * g it).sum := by
  induction items with
  | nil => rfl
  | cons it rest ih =>
    simp only [List.map_cons, List.zipWith_cons_cons, mulCell]
    simp only [nansum, List.filterMap_cons, id_eq, List.sum_cons] at ih ⊢
    rw [ih]

/-- On a nonempty list of fully-populated rows the engine succeeds and
every output field has its closed form. -/
theorem computePricing_items (items : List LineItem) (rate : ℚ) (h : items ≠ []) :
    computePricing (items.map LineItem.toRow) rate =
      .ok { hd_subtotal := subtotalA items, lowes_subtotal := subtotalB items,
            hd_tax := subtotalA items * (rate / 100),
            lowes_tax := subtotalB items * (rate / 100),
            hd_final := subtotalA items + subtotalA items * (rate / 100),
            lowes_final := subtotalB items + subtotalB items * (rate / 100),
            cheaper := if subtotalA items + subtotalA items * (rate / 100) <
                subtotalB items + subtotalB items * (rate / 100)
              then .HD else .Lowes } := by
  unfold computePricing
  rw [dfColumn_map_toRow items h .Qty, dfColumn_map_toRow items h .Price_HD,
    dfColumn_map_toRow items h .Price_Lowes]
  simp only [Except.bind]
  have e1 : (items.map LineItem.toRow).map (Col.proj .Qty) =
      items.map fun it => some it.quantity := by
    simp [List.map_map, Col.proj, LineItem.toRow, Function.comp_def]
  have e2 : (items.map LineItem.toRow).map (Col.proj .Price_HD) =
      items.map fun it => some it.priceA := by
    simp [List.map_map, Col.proj, LineItem.toRow, Function.comp_def]
  have e3 : (items.map LineItem.toRow).map (Col.proj .Price_Lowes) =
      items.map fun it => some it.priceB := by
    simp [List.map_map, Col.proj, LineItem.toRow, Function.comp_def]
  rw [e1, e2, e3, nansum_zip LineItem.quantity LineItem.priceA,
    nansum_zip LineItem.quantity LineItem.priceB]
  rfl

/-- Inversion: whenever the engine succeeds, its output fields stand in
the relations the source arithmetic imposes. -/
theorem computePricing_ok_shape (rows : List Row) (rate : ℚ) (r : PricingResult)
    (h : computePricing rows rate = .ok r) :
    r.hd_subtotal =
      nansum (List.zipWith mulCell (rows.map (Col.proj .Qty)) (rows.map (Col.proj .Price_HD))) ∧
    r.lowes_subtotal =
      nansum (List.zipWith mulCell (rows.map (Col.proj .Qty)) (rows.map (Col.proj .Price_Lowes))) ∧
    r.hd_tax = r.hd_subtotal * (rate / 100) ∧
    r.lowes_tax = r.lowes_subtotal * (rate / 100) ∧
    r.hd_final = r.hd_subtotal + r.hd_tax ∧
    r.lowes_final = r.lowes_subtotal + r.lowes_tax ∧
    r.cheaper = if r.hd_final < r.lowes_final then Retailer.HD else Retailer.Lowes := by
  unfold computePricing at h
  rcases hq : dfColumn rows .Qty with e | qtyCol
  · rw [hq] at h; simp [Except.bind] at h
  rcases hh : dfColumn rows .Price_HD with e | hdCol
  · rw [hq, hh] at h; simp [Except.bind] at h
  rcases hl : dfColumn rows .Price_Lowes with e | lowesCol
  · rw [hq, hh, hl] at h; simp [Except.bind] at h
  rw [hq, hh, hl] at h
  simp only [Except.bind, Except.ok.injEq] at h
  have hq' : qtyCol = rows.map (Col.proj .Qty) := by
    unfold dfColumn at hq
    split at hq
    · exact (Except.ok.injEq _ _).mp hq |>.symm ▸ rfl
    · simp at hq
  have hh' : hdCol = rows.map (Col.proj .Price_HD) := by
    unfold dfColumn at hh
    split at hh
    · exact (Except.ok.injEq _ _).mp hh |>.symm ▸ rfl
    · simp at hh
  have hl' : lowesCol = rows.map (Col.proj .Price_Lowes) := by
    unfold dfColumn at hl
    split at hl
    · exact (Except.ok.injEq _ _).mp hl |>.symm ▸ rfl
    · simp at hl
  subst hq' hh' hl'
  subst h
  exact ⟨rfl, rfl, rfl, rfl, rfl, rfl, rfl⟩

/-- Replacing one element changes a mapped sum by the difference at that
position. -/
theorem sum_map_set (f : LineItem → ℚ) (l : List LineItem) (i : Nat) (a : LineItem)
    (h : i < l.length) :
    ((l.set i a).map f).sum = (l.map f).sum - f (l.get ⟨i, h⟩) + f a := by
  induction l generalizing i with
  | nil => simp at h
  | cons b t ih =>
    cases i with
    | zero =>
      simp only [List.set, List.map_cons, List.sum_cons, List.get]
      ring
    | succ n =>
      have hn : n < t.length := by simpa using h
      simp only [List.set, List.map_cons, List.sum_cons, List.get_cons_succ]
      rw [ih n hn]
      ring

theorem subtotalA_set (items : List LineItem) (i : Nat) (h : i < items.length) (a : LineItem) :
    subtotalA (items.set i a) =
      subtotalA items - (items.get ⟨i, h⟩).quantity * (items.get ⟨i, h⟩).priceA +
        a.quantity * a.priceA :=
  sum_map_set _ items i a h

theorem subtotalB_set (items : List LineItem) (i : Nat) (h : i < items.length) (a : LineItem) :
    subtotalB (items.set i a) =
      subtotalB items - (items.get ⟨i, h⟩).quantity * (items.get ⟨i, h⟩).priceB +
        a.quantity * a.priceB :=
  sum_map_set _ items i a h

/-- `S + S*d` is weakly monotone in `S` for `0 ≤ d`. -/
theorem final_mono_core (S T d : ℚ) (hd : 0 ≤ d) (h : S ≤ T) :
    S + S * d ≤ T + T * d := by
  nlinarith [mul_nonneg (sub_nonneg.mpr h) hd]

/-- `S + S*d` is strictly monotone in `S` for `0 ≤ d`. -/
theorem final_strict_core (S T d : ℚ) (hd : 0 ≤ d) (h : S < T) :
    S + S * d < T + T * d := by
  nlinarith [mul_nonneg (sub_nonneg.mpr h.le) hd]

/-- The index loop of `process_file` is a map over the first `k` pages. -/
theorem range_min_map_getD {α β : Type} (g : α → β) (d : α) (k : Nat) (l : List α) :
    (List.range (min l.length k)).map (fun i => g (l.getD i d)) = (l.take k).map g := by
  induction l generalizing k with
  | nil => simp
  | cons a t ih =>
    cases k with
    | zero => simp
    | succ m =>
      have hmin : min (a :: t).length (m + 1) = (min t.length m) + 1 := by
        simp [List.length_cons, Nat.succ_min_succ]
      rw [hmin, List.range_succ_eq_map, List.take_succ_cons]
      simp only [List.map_cons, List.getD_cons_zero, List.map_map, Function.comp_def,
        List.getD_cons_succ, Nat.succ_eq_add_one]
      rw [ih m]

/-! ## Claims -/

/-- C1, counterexample: on the empty sequence of line items (with all
hypotheses of the claim vacuously satisfied and tax rate 0) the pricing
engine does not compute the claimed subtotals and totals: it raises a
`KeyError` on the `Qty` column, because the DataFrame built from an
empty list has no columns. -/
theorem C1_counterexample_empty_list :
    computePricing (List.map LineItem.toRow []) 0 = .error (.keyError .Qty) ∧
    ¬ ∃ r, computePricing (List.map LineItem.toRow []) 0 = .ok r := by
  refine ⟨rfl, ?_⟩
  rintro ⟨r, hr⟩
  simp [computePricing, dfColumn, Except.bind] at hr

/-- C1 (amended): for every NONEMPTY sequence of line items with
non-negative quantities and prices and every taxRatePercent in [0,100],
the pricing engine computes, per retailer, `subtotalR = Σ quantity_i *
unitPriceR_i`, `taxR = subtotalR * (taxRatePercent / 100)` and
`totalR = subtotalR + taxR`; in particular for a single-item list
`totalA = quantity * priceA * (1 + taxRate/100)`, and analogously
for B. -/
theorem C1_pricing_formulas (items : List LineItem) (rate : ℚ)
    (hne : items ≠ [])
    (hwf : ∀ it ∈ items, 0 ≤ it.quantity ∧ 0 ≤ it.priceA ∧ 0 ≤ it.priceB)
    (h0 : 0 ≤ rate) (h100 : rate ≤ 100) :
    ∃ r, computePricing (items.map LineItem.toRow) rate = .ok r ∧
      r.hd_subtotal = subtotalA items ∧
      r.lowes_subtotal = subtotalB items ∧
      r.hd_tax = r.hd_subtotal * (rate / 100) ∧
      r.lowes_tax = r.lowes_subtotal * (rate / 100) ∧
      r.hd_final = r.hd_subtotal + r.hd_tax ∧
      r.lowes_final = r.lowes_subtotal + r.lowes_tax ∧
      (∀ it, items = [it] →
        r.hd_final = it.quantity * it.priceA * (1 + rate / 100) ∧
        r.lowes_final = it.quantity * it.priceB * (1 + rate / 100)) := by
  refine ⟨_, computePricing_items items rate hne, rfl, rfl, rfl, rfl, rfl, rfl, ?_⟩
  rintro it rfl
  constructor
  · simp only [subtotalA, List.map_cons, List.map_nil, List.sum_cons, List.sum_nil]
    ring
  · simp only [subtotalB, List.map_cons, List.map_nil, List.sum_cons, List.sum_nil]
    ring

/-- C1 witness: the spec's scenario, one item with quantity 10, price A
2.50, price B 2.75, at tax rate 7. -/
theorem C1_pricing_formulas_witness :
    ∃ r, computePricing ([(⟨10, 5/2, 11/4⟩ : LineItem)].map LineItem.toRow) 7 = .ok r ∧
      r.hd_subtotal = subtotalA [⟨10, 5/2, 11/4⟩] ∧
      r.lowes_subtotal = subtotalB [⟨10, 5/2, 11/4⟩] ∧
      r.hd_tax = r.hd_subtotal * ((7 : ℚ) / 100) ∧
      r.lowes_tax = r.lowes_subtotal * ((7 : ℚ) / 100) ∧
      r.hd_final = r.hd_subtotal + r.hd_tax ∧
      r.lowes_final = r.lowes_subtotal + r.lowes_tax ∧
      (∀ it, [(⟨10, 5/2, 11/4⟩ : LineItem)] = [it] →
        r.hd_final = it.quantity * it.priceA * (1 + (7 : ℚ) / 100) ∧
        r.lowes_final = it.quantity * it.priceB * (1 + (7 : ℚ) / 100)) := by
  refine C1_pricing_formulas [⟨10, 5/2, 11/4⟩] 7 (by simp) ?_ (by norm_num) (by norm_num)
  intro it hin
  rw [List.mem_singleton] at hin
  subst hin
  norm_num

/-- C2: whenever the engine produces a result, the cheaper retailer is
A (Home Depot) exactly when `totalA < totalB`, and B (Lowes) otherwise;
a tie is reported as B, and in particular a single item with
`priceA = priceB` yields B. -/
theorem C2_cheaper_comparison (rows : List Row) (rate : ℚ) (r : PricingResult)
    (h : computePricing rows rate = .ok r) :
    (r.cheaper = Retailer.HD ↔ r.hd_final < r.lowes_final) ∧
    (r.cheaper = Retailer.Lowes ↔ ¬ r.hd_final < r.lowes_final) ∧
    (r.hd_final = r.lowes_final → r.cheaper = Retailer.Lowes) ∧
    (∀ it : LineItem, it.priceA = it.priceB → ∀ r1,
      computePricing [it.toRow] rate = .ok r1 → r1.cheaper = Retailer.Lowes) := by
  obtain ⟨-, -, -, -, -, -, hch⟩ := computePricing_ok_shape rows rate r h
  refine ⟨?_, ?_, ?_, ?_⟩
  · rw [hch]
    by_cases hc : r.hd_final < r.lowes_final <;> simp [hc]
  · rw [hch]
    by_cases hc : r.hd_final < r.lowes_final <;> simp [hc]
  · intro heq
    rw [hch, heq]
    simp
  · intro it hpab r1 h1
    have h1' : computePricing ([it].map LineItem.toRow) rate = .ok r1 := h1
    rw [computePricing_items [it] rate (by simp)] at h1'
    simp only [Except.ok.injEq] at h1'
    subst h1'
    simp [subtotalA, subtotalB, hpab]

/-- C2 witness: a single item with equal prices at tax rate 0 is
reported as B (Lowes). -/
theorem C2_cheaper_comparison_witness :
    computePricing [({ qty := some 1, price_hd := some 1, price_lowes := some 1 } : Row)] 0 =
      .ok { hd_subtotal := 1, lowes_subtotal := 1, hd_tax := 0, lowes_tax := 0,
            hd_final := 1, lowes_final := 1, cheaper := .Lowes } ∧
    ({ hd_subtotal := 1, lowes_subtotal := 1, hd_tax := 0, lowes_tax := 0,
       hd_final := 1, lowes_final := 1, cheaper := .Lowes } : PricingResult).cheaper =
      Retailer.Lowes := by
  have hok : computePricing
      [({ qty := some 1, price_hd := some 1, price_lowes := some 1 } : Row)] 0 =
      .ok { hd_subtotal := 1, lowes_subtotal := 1, hd_tax := 0, lowes_tax := 0,
            hd_final := 1, lowes_final := 1, cheaper := .Lowes } := by
    simp [computePricing, dfColumn, Col.proj, mulCell, nansum, Except.bind]
  exact ⟨hok, (C2_cheaper_comparison _ 0 _ hok).2.2.1 rfl⟩

/-- C3: contrary to the claim, the engine does not succeed with all-zero
totals on an empty shopping list; `pd.DataFrame([])` has no columns, so
the first column access raises `KeyError('Qty')` (surfaced by the app's
catch-all handler), here at the UI default tax rate 7. -/
theorem C3_empty_list_keyerror :
    computePricing (List.map LineItem.toRow []) 7 = .error (.keyError .Qty) := rfl

/-- C4: contrary to the claim, a line item with a missing quantity does
NOT make the engine fail: the defective row's product is NaN, pandas
`Series.sum()` skips NaN cells, and the engine silently returns
subtotals that ignore the row (here 2*3 = 6 and 2*4 = 8, with the
second row dropped). -/
theorem C4_missing_qty_silently_summed :
    computePricing [{ qty := some 2, price_hd := some 3, price_lowes := some 4 },
      { qty := none, price_hd := some 5, price_lowes := some 6 }] 0 =
      .ok { hd_subtotal := 6, lowes_subtotal := 8, hd_tax := 0, lowes_tax := 0,
            hd_final := 6, lowes_final := 8, cheaper := .HD } := by
  simp [computePricing, dfColumn, Col.proj, mulCell, nansum, Except.bind]
  norm_num

/-- C5: for a PDF upload whose stream parses to `pages`, the ingestion
adapter returns exactly the first `min(n, 5)` pages, in original order,
each rendered at `fitz.Matrix(3, 3)` (3x linear upscaling) and
base64-encoded; pages beyond the cap are silently dropped. -/
theorem C5_pdf_page_cap (f : UploadedFile) (pages : List Page)
    (htype : f.type = "application/pdf") (hbytes : f.bytes = .pdfStream pages) :
    process_file f =
      .ok ((pages.take 5).map fun p => b64encode ((p.get_pixmap ⟨3, 3⟩).tobytes_png)) ∧
    ∀ imgs, process_file f = .ok imgs → imgs.length = min pages.length 5 := by
  have hmain : process_file f =
      .ok ((pages.take 5).map fun p => b64encode ((p.get_pixmap ⟨3, 3⟩).tobytes_png)) := by
    unfold process_file
    rw [if_pos htype, hbytes]
    show Except.ok ((List.range (min pages.length 5)).map fun page_num =>
      b64encode (((pages.getD page_num ⟨0⟩).get_pixmap ⟨3, 3⟩).tobytes_png)) = _
    rw [range_min_map_getD (fun p => b64encode ((p.get_pixmap ⟨3, 3⟩).tobytes_png))
      (⟨0⟩ : Page) 5 pages]
  refine ⟨hmain, ?_⟩
  intro imgs himgs
  rw [hmain] at himgs
  simp only [Except.ok.injEq] at himgs
  subst himgs
  simp [List.length_map, List.length_take, Nat.min_comm]

/-- C5 witness: a 7-page document yields exactly the first 5 pages. -/
theorem C5_pdf_page_cap_witness :
    process_file ⟨"application/pdf", .pdfStream [⟨0⟩, ⟨1⟩, ⟨2⟩, ⟨3⟩, ⟨4⟩, ⟨5⟩, ⟨6⟩]⟩ =
      .ok (([⟨0⟩, ⟨1⟩, ⟨2⟩, ⟨3⟩, ⟨4⟩] : List Page).map fun p =>
        b64encode ((p.get_pixmap ⟨3, 3⟩).tobytes_png)) ∧
    (([⟨0⟩, ⟨1⟩, ⟨2⟩, ⟨3⟩, ⟨4⟩] : List Page).map fun p =>
        b64encode ((p.get_pixmap ⟨3, 3⟩).tobytes_png)).length = 5 := by
  have h := C5_pdf_page_cap ⟨"application/pdf", .pdfStream [⟨0⟩, ⟨1⟩, ⟨2⟩, ⟨3⟩, ⟨4⟩, ⟨5⟩, ⟨6⟩]⟩
    [⟨0⟩, ⟨1⟩, ⟨2⟩, ⟨3⟩, ⟨4⟩, ⟨5⟩, ⟨6⟩] rfl rfl
  constructor
  · simpa using h.1
  · have hlen := h.2 _ h.1
    simpa using hlen

/-- C6, counterexample: additivity fails as stated when one part is
empty; the combined computation succeeds but `compute(items1, rate)`
raises a `KeyError` on the empty part, so no triple of results exists. -/
theorem C6_counterexample_empty_part :
    ¬ ∃ r12 r1 r2,
      computePricing ((([] : List LineItem) ++ ([⟨1, 2, 3⟩] : List LineItem)).map LineItem.toRow) 5 = .ok r12 ∧
      computePricing (([] : List LineItem).map LineItem.toRow) 5 = .ok r1 ∧
      computePricing ([(⟨1, 2, 3⟩ : LineItem)].map LineItem.toRow) 5 = .ok r2 ∧
      r12.hd_subtotal = r1.hd_subtotal + r2.hd_subtotal ∧
      r12.lowes_subtotal = r1.lowes_subtotal + r2.lowes_subtotal := by
  rintro ⟨r12, r1, r2, -, h1, -⟩
  simp [computePricing, dfColumn, Except.bind] at h1

/-- C6 (amended): for every two NONEMPTY sequences of line items and
every tax rate, all three computations succeed and the subtotal of the
concatenation is the sum of the parts' subtotals, for both retailers. -/
theorem C6_subtotal_additivity (items1 items2 : List LineItem) (rate : ℚ)
    (h1 : items1 ≠ []) (h2 : items2 ≠ []) :
    ∃ r12 r1 r2,
      computePricing ((items1 ++ items2).map LineItem.toRow) rate = .ok r12 ∧
      computePricing (items1.map LineItem.toRow) rate = .ok r1 ∧
      computePricing (items2.map LineItem.toRow) rate = .ok r2 ∧
      r12.hd_subtotal = r1.hd_subtotal + r2.hd_subtotal ∧
      r12.lowes_subtotal = r1.lowes_subtotal + r2.lowes_subtotal := by
  have h12 : items1 ++ items2 ≠ [] := by
    cases items1 with
    | nil => exact absurd rfl h1
    | cons a t => simp
  refine ⟨_, _, _, computePricing_items _ rate h12, computePricing_items _ rate h1,
    computePricing_items _ rate h2, ?_, ?_⟩
  · simp [subtotalA]
  · simp [subtotalB]

/-- C6 witness: the spec's two-item scenario split into its two rows, at
tax rate 0. -/
theorem C6_subtotal_additivity_witness :
    ∃ r12 r1 r2,
      computePricing (([(⟨4, 3, 3⟩ : LineItem)] ++ [(⟨1, 50, 45⟩ : LineItem)]).map LineItem.toRow) 0 = .ok r12 ∧
      computePricing ([(⟨4, 3, 3⟩ : LineItem)].map LineItem.toRow) 0 = .ok r1 ∧
      computePricing ([(⟨1, 50, 45⟩ : LineItem)].map LineItem.toRow) 0 = .ok r2 ∧
      r12.hd_subtotal = r1.hd_subtotal + r2.hd_subtotal ∧
      r12.lowes_subtotal = r1.lowes_subtotal + r2.lowes_subtotal :=
  C6_subtotal_additivity [⟨4, 3, 3⟩] [⟨1, 50, 45⟩] 0 (by simp) (by simp)

/-- C8: an upload whose declared media type is not PDF is passed through
as a single-element sequence holding the base64 encoding of its raw
bytes, with no re-encoding of pixels. -/
theorem C8_raster_passthrough (f : UploadedFile) (h : f.type ≠ "application/pdf") :
    process_file f = .ok [b64encode f.bytes] := by
  simp [process_file, h]

/-- C8 witness: a PNG upload. -/
theorem C8_raster_passthrough_witness :
    process_file ⟨"image/png", .raw [137, 80, 78, 71]⟩ =
      .ok [b64encode (.raw [137, 80, 78, 71])] :=
  C8_raster_passthrough ⟨"image/png", .raw [137, 80, 78, 71]⟩ (by decide)

/-- C9: a PDF upload whose stream PyMuPDF cannot parse makes the
ingestion adapter fail with the distinct parse error (`process_file` has
no handler, so the exception propagates); it never returns a page-image
sequence for such input. -/
theorem C9_corrupt_pdf_raises (f : UploadedFile) (tag : Nat)
    (htype : f.type = "application/pdf") (hbytes : f.bytes = .corrupt tag) :
    process_file f = .error .fileDataError ∧ ∀ imgs, process_file f ≠ .ok imgs := by
  have hmain : process_file f = .error .fileDataError := by
    unfold process_file
    rw [if_pos htype, hbytes]
    rfl
  refine ⟨hmain, ?_⟩
  intro imgs h
  rw [hmain] at h
  exact Except.noConfusion h

/-- C9 witness: a concrete corrupt stream. -/
theorem C9_corrupt_pdf_raises_witness :
    process_file ⟨"application/pdf", .corrupt 99⟩ = .error .fileDataError :=
  (C9_corrupt_pdf_raises ⟨"application/pdf", .corrupt 99⟩ 99 rfl rfl).1

/-- C10: the tax rate never changes which retailer is reported cheaper:
whenever the engine produces results for the same line items at rate
`rate` in [0,100] and at rate 0, the cheaper retailer is the same, and
`totalA < totalB` holds exactly when `subtotalA < subtotalB`. -/
theorem C10_tax_preserves_cheaper (items : List LineItem) (rate : ℚ)
    (hwf : ∀ it ∈ items, 0 ≤ it.quantity ∧ 0 ≤ it.priceA ∧ 0 ≤ it.priceB)
    (h0 : 0 ≤ rate) (h100 : rate ≤ 100)
    (r r0 : PricingResult)
    (hr : computePricing (items.map LineItem.toRow) rate = .ok r)
    (hr0 : computePricing (items.map LineItem.toRow) 0 = .ok r0) :
    r.cheaper = r0.cheaper ∧
    (r.hd_final < r.lowes_final ↔ r.hd_subtotal < r.lowes_subtotal) := by
  cases items with
  | nil => simp [computePricing, dfColumn, Except.bind] at hr
  | cons it0 rest =>
    have hne : it0 :: rest ≠ [] := by simp
    rw [computePricing_items _ rate hne] at hr
    rw [computePricing_items _ 0 hne] at hr0
    simp only [Except.ok.injEq] at hr hr0
    subst hr hr0
    have hdpos : (0 : ℚ) < 1 + rate / 100 := by
      have : (0 : ℚ) ≤ rate / 100 := div_nonneg h0 (by norm_num)
      linarith
    have key : ∀ S T d : ℚ, 0 < 1 + d → (S + S * d < T + T * d ↔ S < T) := by
      intro S T d hd
      rw [show S + S * d = S * (1 + d) by ring, show T + T * d = T * (1 + d) by ring]
      exact mul_lt_mul_right hd
    constructor
    · show (if _ < _ then Retailer.HD else Retailer.Lowes) =
        (if _ < _ then Retailer.HD else Retailer.Lowes)
      rw [if_congr ((key _ _ _ hdpos).trans
        (key _ _ ((0 : ℚ) / 100) (by norm_num)).symm) rfl rfl]
    · exact key _ _ _ hdpos

/-- C10 witness: the spec's scenario at rates 7 and 0; both report A. -/
theorem C10_tax_preserves_cheaper_witness :
    computePricing ([(⟨10, 5/2, 11/4⟩ : LineItem)].map LineItem.toRow) 7 =
      .ok { hd_subtotal := 25, lowes_subtotal := 55/2, hd_tax := 7/4, lowes_tax := 77/40,
            hd_final := 107/4, lowes_final := 1177/40, cheaper := .HD } ∧
    computePricing ([(⟨10, 5/2, 11/4⟩ : LineItem)].map LineItem.toRow) 0 =
      .ok { hd_subtotal := 25, lowes_subtotal := 55/2, hd_tax := 0, lowes_tax := 0,
            hd_final := 25, lowes_final := 55/2, cheaper := .HD } ∧
    ({ hd_subtotal := 25, lowes_subtotal := 55/2, hd_tax := 7/4, lowes_tax := 77/40,
       hd_final := 107/4, lowes_final := 1177/40, cheaper := .HD } : PricingResult).cheaper =
      ({ hd_subtotal := 25, lowes_subtotal := 55/2, hd_tax := 0, lowes_tax := 0,
         hd_final := 25, lowes_final := 55/2, cheaper := .HD } : PricingResult).cheaper := by
  have hok1 : computePricing ([(⟨10, 5/2, 11/4⟩ : LineItem)].map LineItem.toRow) 7 =
      .ok { hd_subtotal := 25, lowes_subtotal := 55/2, hd_tax := 7/4, lowes_tax := 77/40,
            hd_final := 107/4, lowes_final := 1177/40, cheaper := .HD } := by
    simp [computePricing, dfColumn, Col.proj, LineItem.toRow, mulCell, nansum, Except.bind]
    norm_num
  have hok0 : computePricing ([(⟨10, 5/2, 11/4⟩ : LineItem)].map LineItem.toRow) 0 =
      .ok { hd_subtotal := 25, lowes_subtotal := 55/2, hd_tax := 0, lowes_tax := 0,
            hd_final := 25, lowes_final := 55/2, cheaper := .HD } := by
    simp [computePricing, dfColumn, Col.proj, LineItem.toRow, mulCell, nansum, Except.bind]
    norm_num
  refine ⟨hok1, hok0, ?_⟩
  refine (C10_tax_preserves_cheaper [⟨10, 5/2, 11/4⟩] 7 ?_ (by norm_num) (by norm_num)
    _ _ hok1 hok0).1
  intro it hin
  rw [List.mem_singleton] at hin
  subst hin
  norm_num

/-- C7, counterexample: strictly increasing an item's unit price does
not always strictly increase that retailer's total: for a single item
with quantity 0 (non-negative data, tax rate 0), raising priceA from 1
to 2 leaves totalA unchanged at 0. -/
theorem C7_counterexample_zero_quantity :
    ∃ r r1,
      computePricing ([(⟨0, 1, 1⟩ : LineItem)].map LineItem.toRow) 0 = .ok r ∧
      computePricing ([(⟨0, 2, 1⟩ : LineItem)].map LineItem.toRow) 0 = .ok r1 ∧
      (⟨0, 1, 1⟩ : LineItem).priceA < (⟨0, 2, 1⟩ : LineItem).priceA ∧
      ¬ r.hd_final < r1.hd_final := by
  refine ⟨_, _, computePricing_items _ 0 (by simp), computePricing_items _ 0 (by simp),
    by norm_num, ?_⟩
  norm_num [subtotalA, subtotalB]

/-- C7 (amended): for non-negative data and tax rate in [0,100],
increasing one item's quantity never decreases either total and
strictly increases retailer R's total when that item's unit price at R
is strictly positive; increasing one unit price leaves the other
retailer's total unchanged, never decreases the own total, and strictly
increases it when the item's quantity is strictly positive. -/
theorem C7_total_monotonicity (items : List LineItem) (i : Nat) (hi : i < items.length)
    (rate : ℚ)
    (hwf : ∀ it ∈ items, 0 ≤ it.quantity ∧ 0 ≤ it.priceA ∧ 0 ≤ it.priceB)
    (h0 : 0 ≤ rate) (h100 : rate ≤ 100) :
    (∀ q' r r', (items.get ⟨i, hi⟩).quantity < q' →
      computePricing (items.map LineItem.toRow) rate = .ok r →
      computePricing ((items.set i
        { items.get ⟨i, hi⟩ with quantity := q' }).map LineItem.toRow) rate = .ok r' →
      r.hd_final ≤ r'.hd_final ∧ r.lowes_final ≤ r'.lowes_final ∧
      (0 < (items.get ⟨i, hi⟩).priceA → r.hd_final < r'.hd_final) ∧
      (0 < (items.get ⟨i, hi⟩).priceB → r.lowes_final < r'.lowes_final)) ∧
    (∀ pa' r r', (items.get ⟨i, hi⟩).priceA < pa' →
      computePricing (items.map LineItem.toRow) rate = .ok r →
      computePricing ((items.set i
        { items.get ⟨i, hi⟩ with priceA := pa' }).map LineItem.toRow) rate = .ok r' →
      r.hd_final ≤ r'.hd_final ∧ r.lowes_final = r'.lowes_final ∧
      (0 < (items.get ⟨i, hi⟩).quantity → r.hd_final < r'.hd_final)) ∧
    (∀ pb' r r', (items.get ⟨i, hi⟩).priceB < pb' →
      computePricing (items.map LineItem.toRow) rate = .ok r →
      computePricing ((items.set i
        { items.get ⟨i, hi⟩ with priceB := pb' }).map LineItem.toRow) rate = .ok r' →
      r.lowes_final ≤ r'.lowes_final ∧ r.hd_final = r'.hd_final ∧
      (0 < (items.get ⟨i, hi⟩).quantity → r.lowes_final < r'.lowes_final)) := by
  have hne : items ≠ [] := by
    intro hnil
    rw [hnil] at hi
    simp at hi
  have hne' : ∀ a : LineItem, items.set i a ≠ [] := by
    intro a hnil
    have hlen := List.length_set items i a
    rw [hnil] at hlen
    simp at hlen
    omega
  have hdnn : (0 : ℚ) ≤ rate / 100 := div_nonneg h0 (by norm_num)
  obtain ⟨hq0, hpa0, hpb0⟩ := hwf (items.get ⟨i, hi⟩) (items.get_mem i hi)
  refine ⟨?_, ?_, ?_⟩
  · intro q' r r' hlt hr hr'
    rw [computePricing_items items rate hne] at hr
    rw [computePricing_items _ rate (hne' _)] at hr'
    simp only [Except.ok.injEq] at hr hr'
    subst hr hr'
    have hSA := subtotalA_set items i hi { items.get ⟨i, hi⟩ with quantity := q' }
    have hSB := subtotalB_set items i hi { items.get ⟨i, hi⟩ with quantity := q' }
    simp only at hSA hSB
    refine ⟨?_, ?_, ?_, ?_⟩
    · exact final_mono_core _ _ _ hdnn (by nlinarith [mul_nonneg (by linarith :
        (0 : ℚ) ≤ q' - (items.get ⟨i, hi⟩).quantity) hpa0])
    · exact final_mono_core _ _ _ hdnn (by nlinarith [mul_nonneg (by linarith :
        (0 : ℚ) ≤ q' - (items.get ⟨i, hi⟩).quantity) hpb0])
    · intro hpos
      exact final_strict_core _ _ _ hdnn (by nlinarith [mul_pos (by linarith :
        (0 : ℚ) < q' - (items.get ⟨i, hi⟩).quantity) hpos])
    · intro hpos
      exact final_strict_core _ _ _ hdnn (by nlinarith [mul_pos (by linarith :
        (0 : ℚ) < q' - (items.get ⟨i, hi⟩).quantity) hpos])
  · intro pa' r r' hlt hr hr'
    rw [computePricing_items items rate hne] at hr
    rw [computePricing_items _ rate (hne' _)] at hr'
    simp only [Except.ok.injEq] at hr hr'
    subst hr hr'
    have hSA := subtotalA_set items i hi { items.get ⟨i, hi⟩ with priceA := pa' }
    have hSB := subtotalB_set items i hi { items.get ⟨i, hi⟩ with priceA := pa' }
    simp only at hSA hSB
    refine ⟨?_, ?_, ?_⟩
    · exact final_mono_core _ _ _ hdnn (by nlinarith [mul_nonneg hq0 (by linarith :
        (0 : ℚ) ≤ pa' - (items.get ⟨i, hi⟩).priceA)])
    · have hBeq : subtotalB (items.set i { items.get ⟨i, hi⟩ with priceA := pa' }) =
          subtotalB items := by
        rw [hSB]; ring
      simp only [hBeq]
    · intro hpos
      exact final_strict_core _ _ _ hdnn (by nlinarith [mul_pos hpos (by linarith :
        (0 : ℚ) < pa' - (items.get ⟨i, hi⟩).priceA)])
  · intro pb' r r' hlt hr hr'
    rw [computePricing_items items rate hne] at hr
    rw [computePricing_items _ rate (hne' _)] at hr'
    simp only [Except.ok.injEq] at hr hr'
    subst hr hr'
    have hSA := subtotalA_set items i hi { items.get ⟨i, hi⟩ with priceB := pb' }
    have hSB := subtotalB_set items i hi { items.get ⟨i, hi⟩ with priceB := pb' }
    simp only at hSA hSB
    refine ⟨?_, ?_, ?_⟩
    · exact final_mono_core _ _ _ hdnn (by nlinarith [mul_nonneg hq0 (by linarith :
        (0 : ℚ) ≤ pb' - (items.get ⟨i, hi⟩).priceB)])
    · have hAeq : subtotalA (items.set i { items.get ⟨i, hi⟩ with priceB := pb' }) =
          subtotalA items := by
        rw [hSA]; ring
      simp only [hAeq]
    · intro hpos
      exact final_strict_core _ _ _ hdnn (by nlinarith [mul_pos hpos (by linarith :
        (0 : ℚ) < pb' - (items.get ⟨i, hi⟩).priceB)])

/-- C7 witness: raising the quantity of the single item (1, 2, 3) from
1 to 2 at tax rate 0 strictly raises the Home Depot total from 2 to 4. -/
theorem C7_total_monotonicity_witness :
    computePricing ([(⟨1, 2, 3⟩ : LineItem)].map LineItem.toRow) 0 =
      .ok { hd_subtotal := 2, lowes_subtotal := 3, hd_tax := 0, lowes_tax := 0,
            hd_final := 2, lowes_final := 3, cheaper := .HD } ∧
    computePricing ([(⟨2, 2, 3⟩ : LineItem)].map LineItem.toRow) 0 =
      .ok { hd_subtotal := 4, lowes_subtotal := 6, hd_tax := 0, lowes_tax := 0,
            hd_final := 4, lowes_final := 6, cheaper := .HD } ∧
    ({ hd_subtotal := 2, lowes_subtotal := 3, hd_tax := 0, lowes_tax := 0,
       hd_final := 2, lowes_final := 3, cheaper := .HD } : PricingResult).hd_final <
      ({ hd_subtotal := 4, lowes_subtotal := 6, hd_tax := 0, lowes_tax := 0,
         hd_final := 4, lowes_final := 6, cheaper := .HD } : PricingResult).hd_final := by
  have hok1 : computePricing ([(⟨1, 2, 3⟩ : LineItem)].map LineItem.toRow) 0 =
      .ok { hd_subtotal := 2, lowes_subtotal := 3, hd_tax := 0, lowes_tax := 0,
            hd_final := 2, lowes_final := 3, cheaper := .HD } := by
    simp [computePricing, dfColumn, Col.proj, LineItem.toRow, mulCell, nansum, Except.bind]
    norm_num
  have hok2 : computePricing ([(⟨2, 2, 3⟩ : LineItem)].map LineItem.toRow) 0 =
      .ok { hd_subtotal := 4, lowes_subtotal := 6, hd_tax := 0, lowes_tax := 0,
            hd_final := 4, lowes_final := 6, cheaper := .HD } := by
    simp [computePricing, dfColumn, Col.proj, LineItem.toRow, mulCell, nansum, Except.bind]
    norm_num
  refine ⟨hok1, hok2, ?_⟩
  have hmono := (C7_total_monotonicity [⟨1, 2, 3⟩] 0 (by norm_num) 0
    (by intro it hin; rw [List.mem_singleton] at hin; subst hin; norm_num)
    (by norm_num) (by norm_num)).1
  exact (hmono 2 _ _ (by norm_num) hok1 hok2).2.2.1 (by norm_num)

end LumberPricer
